import Mathlib

/-!
Verification of the gargoyle-local-monitor process-liveness probe.

The repository (src/src/lib.rs) defines two probe types over a refreshable
snapshot of the OS process table:
  - `Service`      : substring match (`sysinfo::System::processes_by_name`)
  - `ExactService` : exact match      (`sysinfo::System::processes_by_exact_name`)
Each probe's `check()` refreshes the snapshot, queries it for the stored
target `process_name`, and returns `Action::Nothing` on a match or
`Action::Notify { diagnostic: Some("<name> is down") }` otherwise.

The OS process table is modelled as a `List String` of process names passed
as an environment argument to `refresh_processes`/`check`; the mutable
`&mut self` receiver is modelled by explicit state passing (`check` returns
the updated probe together with the `Action`).
-/

namespace GargoyleLocalMonitor

/-- Byte-literal test that `haystack` starts with `needle`
(the character-level view of Rust's `str::starts_with` on valid UTF-8). -/
def startsWithL : List Char → List Char → Bool
  | _, [] => true
  | [], _ :: _ => false
  | a :: as, b :: bs => a = b && startsWithL as bs

/-- Case-sensitive, byte-literal substring containment: `containsL haystack
needle` is the character-level view of Rust's `str::contains(needle)` used by
`sysinfo`'s name filters (on valid UTF-8 a byte-level substring match always
aligns to character boundaries, so the two views agree). -/
def containsL : List Char → List Char → Bool
  | [], needle => needle.isEmpty
  | h :: t, needle => startsWithL (h :: t) needle || containsL t needle

/-- The `gargoyle::Action` signal returned by a monitor's `check()`:
`Nothing` (no action needed) or `Notify` with an optional diagnostic. -/
inductive Action where
  | Nothing : Action
  | Notify (diagnostic : Option String) : Action
deriving DecidableEq, Repr

/-- Modelled from the spec: the spec's `ProcessTableSnapshot` (`sysinfo::System`
in the source, an external crate not under src/) — a refreshable cache of the
process names visible in the OS process table. -/
structure System where
  processes : List String
deriving DecidableEq, Repr

/-- `sysinfo::System::new()`: an empty/uninitialized snapshot. -/
def System.new : System := ⟨[]⟩

/-- Modelled from the spec: `refresh()` re-reads the OS process table
(supplied here as the environment argument `table`) into the internal cache,
fully replacing prior contents. -/
def System.refresh_processes (_ : System) (table : List String) : System :=
  ⟨table⟩

/-- Modelled from the spec: `find_by_substring` / `sysinfo`'s
`processes_by_name(name)` — the cached processes whose name contains `name`
as a case-sensitive, byte-literal substring. -/
def System.processes_by_name (s : System) (name : String) : List String :=
  s.processes.filter (fun p => containsL p.data name.data)

/-- Modelled from the spec: `find_by_exact` / `sysinfo`'s
`processes_by_exact_name(name)` — the cached processes whose name is exactly
equal to `name`. -/
def System.processes_by_exact_name (s : System) (name : String) : List String :=
  s.processes.filter (fun p => p = name)

/-- The substring-match probe (`pub struct Service` in src/src/lib.rs). -/
structure Service where
  process_name : String
  system : System
deriving DecidableEq, Repr

/-- The exact-match probe (`pub struct ExactService` in src/src/lib.rs). -/
structure ExactService where
  process_name : String
  system : System
deriving DecidableEq, Repr

/-- `Service::new` (src/src/lib.rs lines 67-72): stores the name verbatim and
a fresh empty snapshot. -/
def Service.new (process_name : String) : Service :=
  { process_name := process_name, system := System.new }

/-- `ExactService::new` (src/src/lib.rs lines 76-81). -/
def ExactService.new (process_name : String) : ExactService :=
  { process_name := process_name, system := System.new }

/-- `impl Monitor for Service::check` (src/src/lib.rs lines 86-97): refresh
the snapshot, then `Notify` with `"<name> is down"` when no process name
contains `process_name` as a substring, else `Nothing`. The current OS
process table is the environment argument `table`. -/
def Service.check (self : Service) (table : List String) : Service × Action :=
  let self := { self with system := self.system.refresh_processes table }
  if (self.system.processes_by_name self.process_name).isEmpty then
    (self, Action.Notify (some (self.process_name ++ " is down")))
  else
    (self, Action.Nothing)

/-- `impl Monitor for ExactService::check` (src/src/lib.rs lines 102-113):
identical to `Service.check` but requiring exact name equality. -/
def ExactService.check (self : ExactService) (table : List String) :
    ExactService × Action :=
  let self := { self with system := self.system.refresh_processes table }
  if (self.system.processes_by_exact_name self.process_name).isEmpty then
    (self, Action.Notify (some (self.process_name ++ " is down")))
  else
    (self, Action.Nothing)

/-! ## Shared helper lemmas -/

theorem startsWithL_refl (l : List Char) : startsWithL l l = true := by
  induction l with
  | nil => rfl
  | cons a as ih => simp [startsWithL, ih]

theorem containsL_refl (l : List Char) : containsL l l = true := by
  cases l with
  | nil => rfl
  | cons a as => simp [containsL, startsWithL_refl]

theorem filter_isEmpty_eq_false {p : String → Bool} {l : List String}
    (e : String) (he : e ∈ l) (hp : p e = true) :
    (l.filter p).isEmpty = false := by
  rcases h : (l.filter p).isEmpty with _ | _
  · rfl
  · exact absurd hp ((List.filter_eq_nil_iff.mp (List.isEmpty_iff.mp h)) e he)

theorem append_is_down_ne_empty (p : String) : p ++ " is down" ≠ "" := by
  intro h
  have hd := congrArg String.data h
  rw [String.data_append] at hd
  simpa using congrArg List.length hd

theorem check_exact_no_action_iff (e : ExactService) (table : List String) :
    (e.check table).2 = Action.Nothing ↔ e.process_name ∈ table := by
  simp only [ExactService.check, System.refresh_processes,
    System.processes_by_exact_name]
  split
  · rename_i h
    simp only [List.isEmpty_iff, List.filter_eq_nil_iff] at h
    constructor
    · intro hc; exact absurd hc (by simp)
    · intro hm
      exact absurd (by simp : decide (e.process_name = e.process_name) = true)
        (h _ hm)
  · rename_i h
    rw [Bool.not_eq_true, List.isEmpty_eq_false] at h
    constructor
    · intro _
      rcases List.exists_mem_of_ne_nil _ h with ⟨x, hx⟩
      have hf := List.mem_filter.mp hx
      have hxe : x = e.process_name := by simpa using hf.2
      rw [hxe] at hf
      exact hf.1
    · intro _; rfl

theorem service_check_no_action_of_present (s : Service) (table : List String)
    (h : ∃ e ∈ table, containsL e.data s.process_name.data = true) :
    (s.check table).2 = Action.Nothing := by
  obtain ⟨e, he, hc⟩ := h
  simp only [Service.check, System.refresh_processes, System.processes_by_name]
  rw [if_neg]
  rw [filter_isEmpty_eq_false e he hc]
  exact Bool.false_ne_true

theorem service_check_preserves_name (s : Service) (table : List String) :
    ((s.check table).1).process_name = s.process_name := by
  simp only [Service.check]
  split <;> rfl

theorem exact_check_preserves_name (e : ExactService) (table : List String) :
    ((e.check table).1).process_name = e.process_name := by
  simp only [ExactService.check]
  split <;> rfl

theorem service_check_action_eq (s t : Service) (table : List String)
    (h : s.process_name = t.process_name) :
    (s.check table).2 = (t.check table).2 := by
  simp only [Service.check, System.refresh_processes,
    System.processes_by_name, h]

theorem exact_check_action_eq (s t : ExactService) (table : List String)
    (h : s.process_name = t.process_name) :
    (s.check table).2 = (t.check table).2 := by
  simp only [ExactService.check, System.refresh_processes,
    System.processes_by_exact_name, h]

/-! ## Claims -/

/-- C1: For every snapshot of the process table containing at least one entry
whose recorded name contains the target name as a contiguous, case-sensitive,
byte-literal substring, the substring-match probe's `check()` returns
`Action.Nothing` (no action). -/
theorem C1_substring_present_no_action (s : Service) (table : List String)
    (h : ∃ e ∈ table, containsL e.data s.process_name.data = true) :
    (s.check table).2 = Action.Nothing :=
  service_check_no_action_of_present s table h

/-- C1 witness: the spec's false-positive scenario — snapshot `{"htop"}`,
target `"top"`, substring variant returns no action. -/
theorem C1_substring_present_no_action_witness :
    ((Service.new "top").check ["htop"]).2 = Action.Nothing :=
  C1_substring_present_no_action (Service.new "top") ["htop"]
    ⟨"htop", by decide, by decide⟩

/-- C2: For every snapshot in which no cached process name contains the target
name as a substring, the substring-match probe's `check()` returns `Notify`
with diagnostic exactly `"<process_name> is down"`. -/
theorem C2_substring_absent_notify (s : Service) (table : List String)
    (h : ∀ e ∈ table, containsL e.data s.process_name.data = false) :
    (s.check table).2 = Action.Notify (some (s.process_name ++ " is down")) := by
  simp only [Service.check, System.refresh_processes, System.processes_by_name]
  rw [if_pos]
  rw [List.isEmpty_iff, List.filter_eq_nil_iff]
  intro e he
  simp [h e he]

/-- C2 witness: target `"top"` against snapshot `{"bash", "sshd"}` yields
`Notify (some "top is down")`. -/
theorem C2_substring_absent_notify_witness :
    ((Service.new "top").check ["bash", "sshd"]).2 =
      Action.Notify (some ("top" ++ " is down")) :=
  C2_substring_absent_notify (Service.new "top") ["bash", "sshd"] (by decide)

/-- C3: For every snapshot, the exact-match probe's `check()` returns
`Action.Nothing` iff some cached process name equals the target exactly; and
in particular a snapshot containing `"nginx-worker"` but no entry equal to
`"nginx"` yields `Notify` for target `"nginx"`. -/
theorem C3_exact_no_action_iff :
    (∀ (e : ExactService) (table : List String),
      (e.check table).2 = Action.Nothing ↔ e.process_name ∈ table) ∧
    ((ExactService.new "nginx").check ["nginx-worker"]).2 =
      Action.Notify (some "nginx is down") :=
  ⟨check_exact_no_action_iff, by decide⟩

/-- C3 witness: target `"nginx"` over the concrete snapshot
`{"sshd", "nginx"}` — the exact entry is present, so the probe returns
no action. -/
theorem C3_exact_no_action_iff_witness :
    ((ExactService.new "nginx").check ["sshd", "nginx"]).2 = Action.Nothing :=
  (C3_exact_no_action_iff.1 (ExactService.new "nginx") ["sshd", "nginx"]).mpr
    (by decide)

/-- C4: When the refreshed snapshot is empty, `check()` on either variant
returns `Notify` with the down-diagnostic `"<target> is down"`, for every
target name; the `Action` type admits no distinct error result. -/
theorem C4_empty_snapshot_notify (s : Service) (e : ExactService) :
    (s.check []).2 = Action.Notify (some (s.process_name ++ " is down")) ∧
    (e.check []).2 = Action.Notify (some (e.process_name ++ " is down")) :=
  ⟨rfl, rfl⟩

/-- C5: Construction stores the supplied name verbatim in `process_name` for
both variants — no trimming, no case normalization; in particular
`new("Nginx").process_name = "Nginx"`. -/
theorem C5_new_stores_name_verbatim :
    (∀ s : String, (Service.new s).process_name = s ∧
      (ExactService.new s).process_name = s) ∧
    (Service.new "Nginx").process_name = "Nginx" :=
  ⟨fun _ => ⟨rfl, rfl⟩, rfl⟩

/-- C6 counterexample: the claim that construction always yields a non-empty
`process_name` fails — `new` accepts the empty string and stores it verbatim,
so the probe constructed from `""` has an empty `process_name`. -/
theorem C6_nonempty_name_counterexample :
    (Service.new "").process_name = "" ∧
    (ExactService.new "").process_name = "" :=
  ⟨rfl, rfl⟩

/-- C6 (amended): construction stores the supplied name verbatim and `check`
never modifies it, so whenever the name supplied at construction is non-empty,
`process_name` is non-empty at construction and stays non-empty after any
`check` call. Construction itself does not enforce non-emptiness. -/
theorem C6_nonempty_name_amended (s : String) (h : s ≠ "") :
    (Service.new s).process_name ≠ "" ∧
    (ExactService.new s).process_name ≠ "" ∧
    (∀ table : List String,
      (((Service.new s).check table).1).process_name ≠ "") ∧
    (∀ table : List String,
      (((ExactService.new s).check table).1).process_name ≠ "") := by
  refine ⟨h, h, fun table => ?_, fun table => ?_⟩
  · rw [service_check_preserves_name]; exact h
  · rw [exact_check_preserves_name]; exact h

/-- C6 witness: the amended invariant at the concrete name `"top"` and the
concrete snapshot `{"bash"}`. -/
theorem C6_nonempty_name_witness :
    (Service.new "top").process_name ≠ "" ∧
    (((ExactService.new "top").check ["bash"]).1).process_name ≠ "" :=
  ⟨(C6_nonempty_name_amended "top" (by decide)).1,
   (C6_nonempty_name_amended "top" (by decide)).2.2.2 ["bash"]⟩

/-- C7: Idempotence of `check()` under an unchanged process table — for
either variant, a second `check()` observing the same process-table contents
returns the same signal (same variant, same diagnostic text) as the first. -/
theorem C7_check_idempotent (s : Service) (e : ExactService)
    (table : List String) :
    (((s.check table).1).check table).2 = (s.check table).2 ∧
    (((e.check table).1).check table).2 = (e.check table).2 :=
  ⟨service_check_action_eq _ s table (service_check_preserves_name s table),
   exact_check_action_eq _ e table (exact_check_preserves_name e table)⟩

/-- C8: On any snapshot, if the exact-match probe returns `Action.Nothing`
then the substring-match probe with the same target returns `Action.Nothing`
too: exact equality of a cached name with the target implies that the name
contains the target as a substring. -/
theorem C8_exact_implies_substring (e : ExactService) (s : Service)
    (table : List String) (h : e.process_name = s.process_name)
    (he : (e.check table).2 = Action.Nothing) :
    (s.check table).2 = Action.Nothing := by
  have hm := (check_exact_no_action_iff e table).mp he
  rw [h] at hm
  exact service_check_no_action_of_present s table
    ⟨s.process_name, hm, containsL_refl _⟩

/-- C8 witness: target `"top"` over snapshot `{"top"}` — the exact probe
returns no action, hence so does the substring probe. -/
theorem C8_exact_implies_substring_witness :
    ((Service.new "top").check ["top"]).2 = Action.Nothing :=
  C8_exact_implies_substring (ExactService.new "top") (Service.new "top")
    ["top"] rfl (by decide)

/-- C9: Whenever `check()` (either variant) returns `Notify`, the diagnostic
is `Some` of a non-empty string; although `Action.Notify` admits an absent
diagnostic, neither probe ever returns `Notify` with diagnostic `none`. -/
theorem C9_notify_diagnostic_populated (s : Service) (e : ExactService)
    (table : List String) :
    (∀ d, (s.check table).2 = Action.Notify d → ∃ m, d = some m ∧ m ≠ "") ∧
    (∀ d, (e.check table).2 = Action.Notify d → ∃ m, d = some m ∧ m ≠ "") := by
  refine ⟨fun d hd => ?_, fun d hd => ?_⟩
  · simp only [Service.check] at hd
    split at hd
    · injection hd with hd2
      exact ⟨_, hd2.symm, append_is_down_ne_empty _⟩
    · exact Action.noConfusion hd
  · simp only [ExactService.check] at hd
    split at hd
    · injection hd with hd2
      exact ⟨_, hd2.symm, append_is_down_ne_empty _⟩
    · exact Action.noConfusion hd

/-- C9 witness: on the empty snapshot the substring probe for `"top"` returns
`Notify` whose diagnostic is `Some` of the non-empty string `"top is down"`. -/
theorem C9_notify_diagnostic_populated_witness :
    ∃ m, some "top is down" = some m ∧ m ≠ "" :=
  (C9_notify_diagnostic_populated (Service.new "top")
    (ExactService.new "top") []).1 (some "top is down") rfl

/-- C10: `check()` never modifies the probe's target name — after any
`check()` call on either variant, `process_name` equals its value before the
call. -/
theorem C10_check_preserves_target (s : Service) (e : ExactService)
    (table : List String) :
    ((s.check table).1).process_name = s.process_name ∧
    ((e.check table).1).process_name = e.process_name :=
  ⟨service_check_preserves_name s table, exact_check_preserves_name e table⟩

end GargoyleLocalMonitor
